import Mathlib

/-!
# Verification of the nio-voice-agent-sdk session/turn orchestration core

Shallow embedding of `packages/voice-sdk/src/VoiceAgent.ts` (classes
`VoiceAgent` and `SessionManager`) and the type definitions of
`packages/voice-sdk/src/types/index.ts`.

Modelling conventions:
* JavaScript `Map` objects become association lists with JS `Map.set`
  semantics (update-in-place for an existing key, append for a fresh key).
* Wall-clock times (`Date.now()`, `new Date()`) become explicit `now : Nat`
  parameters (epoch milliseconds); `randomUUID()` becomes an explicit
  `genId : String` parameter.
* `session.duration`, computed in the source as
  `(endedAt.getTime() - startedAt.getTime()) / 1000`, is modelled over `ℚ`.
* Asynchronous provider calls (`transcribe`, `complete`) become
  `Except String _` parameters holding the outcome the backend produced for
  that single call; a thrown provider error propagates as `AgentError.provider`.
* JavaScript array aliasing is modelled explicitly: in `processAudio` and
  `sendToolResult` the local `history` array aliases the map entry when one
  exists, so a `push` is visible in the map even before the final `set`.
-/

namespace NioVoice

/-- JSON-like value standing for TypeScript `any` payloads (session metadata,
tool arguments, tool results). The core never inspects these values except to
serialize a tool result with `JSON.stringify`. -/
inductive JsonValue where
  | str (s : String)
  | num (n : Int)
  | bool (b : Bool)
  | null
  | arr (items : List JsonValue)
  | obj (fields : List (String × JsonValue))

/-- `SessionStatus` enum from `types/index.ts`. -/
inductive SessionStatus where
  | idle
  | connecting
  | active
  | paused
  | ending
  | ended
  | error
  deriving DecidableEq

/-- Metadata mapping (`Record<string, any>`). -/
abbrev Metadata := List (String × JsonValue)

/-- `SessionConfig.endpointing` from `types/index.ts`. -/
structure Endpointing where
  enabled : Bool
  silenceThreshold : Option Nat := none
  endThreshold : Option Nat := none
  deriving DecidableEq

/-- `SessionConfig` from `types/index.ts`; every field optional. -/
structure SessionConfig where
  id : Option String := none
  language : Option String := none
  sampleRate : Option Nat := none
  encoding : Option String := none
  interruptible : Option Bool := none
  endpointing : Option Endpointing := none
  metadata : Option Metadata := none

/-- `VoiceSession` from `types/index.ts`. Times are epoch milliseconds;
`duration` is in seconds. -/
structure VoiceSession where
  id : String
  status : SessionStatus
  config : SessionConfig
  startedAt : Nat
  endedAt : Option Nat := none
  duration : Option ℚ := none
  metadata : Metadata

/-- Word-level transcript entry (`TranscriptWord`). -/
structure TranscriptWord where
  word : String
  start : ℚ
  stop : ℚ
  confidence : ℚ
  deriving DecidableEq

/-- `Transcript` from `types/index.ts`. -/
structure Transcript where
  text : String
  confidence : ℚ
  isFinal : Bool
  words : Option (List TranscriptWord) := none
  language : Option String := none
  timestamp : Nat
  duration : Option ℚ := none
  deriving DecidableEq

/-- `ToolCall` from `types/index.ts`. -/
structure ToolCall where
  id : String
  name : String
  arguments : List (String × JsonValue)

/-- Message role union of `ChatMessage.role`. -/
inductive Role where
  | system
  | user
  | assistant
  | tool
  deriving DecidableEq

/-- `ChatMessage` from `types/index.ts`. -/
structure ChatMessage where
  role : Role
  content : String
  name : Option String := none
  toolCallId : Option String := none
  deriving DecidableEq

/-- Token usage counts of `LLMResponse.usage`. -/
structure Usage where
  promptTokens : Nat
  completionTokens : Nat
  totalTokens : Nat
  deriving DecidableEq

/-- `LLMResponse.finishReason` union. -/
inductive FinishReason where
  | stop
  | length
  | toolCalls
  | contentFilter
  deriving DecidableEq

/-- `LLMResponse` from `types/index.ts`. -/
structure LLMResponse where
  text : String
  toolCalls : Option (List ToolCall) := none
  usage : Option Usage := none
  finishReason : Option FinishReason := none

/-- `LLMRequest` from `types/index.ts` (the fields the orchestrator populates;
`tools`/`toolChoice` are never set by `VoiceAgent` and are carried as opaque
optional payloads). -/
structure LLMRequest where
  messages : List ChatMessage
  systemPrompt : Option String := none
  temperature : Option ℚ := none
  maxTokens : Option Nat := none
  stream : Option Bool := none
  deriving DecidableEq

/-- `VoiceAgentEvent` tagged union from `types/index.ts` (the variants the
orchestration core emits). The `audio:input` variant carries the
`AudioChunk` fields `data` (raw bytes) and `timestamp`. -/
inductive VoiceAgentEvent where
  | sessionStart (session : VoiceSession)
  | sessionEnd (session : VoiceSession)
  | audioInput (data : List Nat) (timestamp : Nat)
  | transcriptFinal (transcript : Transcript)
  | llmStart (request : LLMRequest)
  | llmResponse (response : LLMResponse)
  | toolCall (tc : ToolCall)
  | toolResult (tc : ToolCall) (result : JsonValue)

/-- Errors surfaced by the orchestrator: `VoiceAgentError` with code
`SESSION_NOT_FOUND` / `SessionError`, or a propagated provider failure
(carried as the backend's message, since `processAudio` rethrows the
provider's rejection unchanged). -/
inductive AgentError where
  | sessionNotFound (id : String)
  | provider (message : String)
  deriving DecidableEq

/-! ## JavaScript `Map` as an association list -/

/-- Lookup in a JS `Map` (`map.get(k)`): first entry with the key. -/
def getEntry {α : Type} (m : List (String × α)) (k : String) : Option α :=
  match m with
  | [] => none
  | (k', v) :: rest => if k' = k then some v else getEntry rest k

/-- JS `map.set(k, v)`: replace in place when the key exists (keeping its
position), append at the end otherwise. -/
def setEntry {α : Type} (m : List (String × α)) (k : String) (v : α) :
    List (String × α) :=
  match m with
  | [] => [(k, v)]
  | (k', v') :: rest =>
    if k' = k then (k, v) :: rest else (k', v') :: setEntry rest k v

/-- JS `map.delete(k)`: drop the entry with the key. -/
def delEntry {α : Type} (m : List (String × α)) (k : String) :
    List (String × α) :=
  m.filter (fun p => p.1 ≠ k)

/-! ## `SessionManager` (session/SessionManager.ts)

The `sessions : Map<string, VoiceSession>` field is the whole state. -/

/-- The `SessionManager`'s session store. -/
abbrev Store := List (String × VoiceSession)

namespace SessionManager

/-- `SessionManager.getSession`. -/
def getSession (st : Store) (id : String) : Option VoiceSession :=
  getEntry st id

/-- `SessionManager.createSession`: builds a fresh IDLE session using the
caller-supplied `config.id` (or the generated `genId`), stamps `startedAt`,
and unconditionally `set`s it into the map. Returns the session and the
updated store. -/
def createSession (st : Store) (config : SessionConfig) (genId : String)
    (now : Nat) : VoiceSession × Store :=
  let session : VoiceSession :=
    { id := config.id.getD genId
      status := SessionStatus.idle
      config := config
      startedAt := now
      metadata := config.metadata.getD [] }
  (session, setEntry st session.id session)

/-- `SessionManager.updateSessionStatus`: throws `SessionError` when the id is
absent; otherwise sets the status, and on entering ENDED stamps
`endedAt := now` and `duration := (endedAt - startedAt) / 1000` (seconds). -/
def updateSessionStatus (st : Store) (id : String) (status : SessionStatus)
    (now : Nat) : Except AgentError Store :=
  match getSession st id with
  | none => Except.error (AgentError.sessionNotFound id)
  | some session =>
    let session' := { session with status := status }
    let session'' :=
      if status = SessionStatus.ended then
        { session' with
            endedAt := some now
            duration := some (((now : ℚ) - (session'.startedAt : ℚ)) / 1000) }
      else session'
    Except.ok (setEntry st id session'')

/-- `SessionManager.endSession`: `updateSessionStatus(id, ENDED)` after an
existence check (both throw the same way when the id is absent). -/
def endSession (st : Store) (id : String) (now : Nat) :
    Except AgentError Store :=
  match getSession st id with
  | none => Except.error (AgentError.sessionNotFound id)
  | some _ => updateSessionStatus st id SessionStatus.ended now

/-- `SessionManager.deleteSession`: `map.delete`, returning whether an entry
existed. -/
def deleteSession (st : Store) (id : String) : Bool × Store :=
  ((getEntry st id).isSome, delEntry st id)

/-- `SessionManager.getActiveSessions`: sessions with status ACTIVE or
CONNECTING, in map iteration order. -/
def getActiveSessions (st : Store) : List VoiceSession :=
  (st.map Prod.snd).filter
    (fun s => s.status = SessionStatus.active ∨
              s.status = SessionStatus.connecting)

/-- The loop guard of `cleanupOldSessions`: status ENDED, `endedAt` present,
and `now - endedAt.getTime() > maxAgeMs`. -/
def isExpired (s : VoiceSession) (maxAgeMs : Int) (now : Nat) : Bool :=
  decide (s.status = SessionStatus.ended) &&
    match s.endedAt with
    | some e => decide (((now : Int) - (e : Int)) > maxAgeMs)
    | none => false

/-- `SessionManager.cleanupOldSessions`: deletes every ENDED session whose end
time is more than `maxAgeMs` in the past and returns how many it deleted. -/
def cleanupOldSessions (st : Store) (maxAgeMs : Int) (now : Nat) :
    Nat × Store :=
  ((st.filter (fun p => isExpired p.2 maxAgeMs now)).length,
   st.filter (fun p => ! isExpired p.2 maxAgeMs now))

/-- `SessionManager.getStats` result record. -/
structure Stats where
  total : Nat
  active : Nat
  ended : Nat
  error : Nat
  deriving DecidableEq

/-- `SessionManager.getStats`. -/
def getStats (st : Store) : Stats :=
  let sessions := st.map Prod.snd
  { total := sessions.length
    active := (sessions.filter (fun s => s.status = SessionStatus.active)).length
    ended := (sessions.filter (fun s => s.status = SessionStatus.ended)).length
    error := (sessions.filter (fun s => s.status = SessionStatus.error)).length }

end SessionManager

/-! ## `VoiceAgent` (VoiceAgent.ts) -/

/-- Escaping of a JSON string literal body (quote and backslash, as
`JSON.stringify` escapes them; control-character escapes are not modelled). -/
def escapeJson (s : String) : String :=
  s.foldl
    (fun acc c =>
      if c = '\\' then acc ++ "\\\\"
      else if c = '"' then acc ++ "\\\"" else acc.push c) ""

mutual

/-- Model of `JSON.stringify` as applied to a tool result in
`VoiceAgent.sendToolResult`. -/
def JsonValue.serialize : JsonValue → String
  | JsonValue.str s => "\"" ++ escapeJson s ++ "\""
  | JsonValue.num n => toString n
  | JsonValue.bool true => "true"
  | JsonValue.bool false => "false"
  | JsonValue.null => "null"
  | JsonValue.arr items => "[" ++ JsonValue.serializeList items ++ "]"
  | JsonValue.obj fields => "\x7b" ++ JsonValue.serializeFields fields ++ "\x7d"

/-- Comma-joined serialization of a JSON array body. -/
def JsonValue.serializeList : List JsonValue → String
  | [] => ""
  | [v] => JsonValue.serialize v
  | v :: rest => JsonValue.serialize v ++ "," ++ JsonValue.serializeList rest

/-- Comma-joined serialization of a JSON object body. -/
def JsonValue.serializeFields : List (String × JsonValue) → String
  | [] => ""
  | [(k, v)] => "\"" ++ escapeJson k ++ "\":" ++ JsonValue.serialize v
  | (k, v) :: rest =>
    "\"" ++ escapeJson k ++ "\":" ++ JsonValue.serialize v ++ "," ++
      JsonValue.serializeFields rest

end

/-- The mutable state of a `VoiceAgent`: the `SessionManager`'s store, the
`conversationHistory : Map<string, ChatMessage[]>`, and the immutable
`systemPrompt` taken from the constructor config. -/
structure AgentState where
  sessions : Store
  histories : List (String × List ChatMessage)
  systemPrompt : String

/-- The result record of `VoiceAgent.processAudio`. -/
structure TurnOutput where
  transcript : Transcript
  response : String
  toolCalls : Option (List ToolCall)

namespace VoiceAgent

/-- `VoiceAgent.getConversationHistory`: the stored ledger, or `[]` when the
id is unknown (non-failing). -/
def getConversationHistory (st : AgentState) (sessionId : String) :
    List ChatMessage :=
  (getEntry st.histories sessionId).getD []

/-- `VoiceAgent.startSession`: create the session (status IDLE), install an
empty ledger, emit `session:start` (the payload still shows status IDLE at
delivery time), then transition the session to ACTIVE; the returned object is
the same session reference, now ACTIVE. -/
def startSession (st : AgentState) (config : SessionConfig) (genId : String)
    (now : Nat) : VoiceSession × AgentState × List VoiceAgentEvent :=
  let created := SessionManager.createSession st.sessions config genId now
  let session := created.1
  let hist1 := setEntry st.histories session.id []
  let evs := [VoiceAgentEvent.sessionStart session]
  let store2 :=
    match SessionManager.updateSessionStatus created.2 session.id
        SessionStatus.active now with
    | Except.ok s => s
    | Except.error _ => created.2
  let returned := (SessionManager.getSession store2 session.id).getD session
  (returned, { st with sessions := store2, histories := hist1 }, evs)

/-- `VoiceAgent.processAudio`: look up the session (throw `SESSION_NOT_FOUND`
when absent), emit `audio:input`, transcribe, emit `transcript:final`, push a
user message onto the ledger array (`history.push` mutates the array stored in
the map when one is there; otherwise it mutates a fresh `[]` not yet in the
map), emit `llm:start`, call the completion backend — a rejection propagates
with the user message kept — then push the assistant message, store the
ledger, emit `llm:response` and one `tool:call` per returned tool call, and
return `{transcript, response, toolCalls}`. The two backend outcomes are the
`transcribeResult`/`completeResult` parameters; the triple returned is
(call result, post-call agent state, events delivered in order on the
generic `event` channel). -/
def processAudio (st : AgentState) (sessionId : String) (audio : List Nat)
    (now : Nat) (transcribeResult : Except String Transcript)
    (completeResult : Except String LLMResponse) :
    Except AgentError TurnOutput × AgentState × List VoiceAgentEvent :=
  match SessionManager.getSession st.sessions sessionId with
  | none => (Except.error (AgentError.sessionNotFound sessionId), st, [])
  | some _ =>
    let evs1 := [VoiceAgentEvent.audioInput audio now]
    match transcribeResult with
    | Except.error e => (Except.error (AgentError.provider e), st, evs1)
    | Except.ok transcript =>
      let evs2 := evs1 ++ [VoiceAgentEvent.transcriptFinal transcript]
      let stored := getEntry st.histories sessionId
      let h0 := stored.getD []
      let h1 := h0 ++ [{ role := Role.user, content := transcript.text }]
      let hist1 :=
        if stored.isSome then setEntry st.histories sessionId h1
        else st.histories
      let request : LLMRequest :=
        { messages := h1
          systemPrompt := some st.systemPrompt
          stream := some false }
      let evs3 := evs2 ++ [VoiceAgentEvent.llmStart request]
      match completeResult with
      | Except.error e =>
        (Except.error (AgentError.provider e),
         { st with histories := hist1 }, evs3)
      | Except.ok response =>
        let evs4 := evs3 ++ [VoiceAgentEvent.llmResponse response]
        let h2 := h1 ++ [{ role := Role.assistant, content := response.text }]
        let hist2 := setEntry st.histories sessionId h2
        let toolEvs :=
          (response.toolCalls.getD []).map VoiceAgentEvent.toolCall
        (Except.ok
           { transcript := transcript
             response := response.text
             toolCalls := response.toolCalls },
         { st with histories := hist2 }, evs4 ++ toolEvs)

/-- `VoiceAgent.sendToolResult`: push a tool message (serialized result, tool
name, originating call id) onto the ledger array — with the same aliasing as
in `processAudio`; no session-existence check happens — call the completion
backend with the extended ledger and the system prompt, push the assistant
message, store the ledger, emit `tool:result`, and return the response
text. -/
def sendToolResult (st : AgentState) (sessionId : String) (tc : ToolCall)
    (result : JsonValue) (completeResult : Except String LLMResponse) :
    Except AgentError String × AgentState × List VoiceAgentEvent :=
  let stored := getEntry st.histories sessionId
  let h0 := stored.getD []
  let toolMsg : ChatMessage :=
    { role := Role.tool
      content := JsonValue.serialize result
      name := some tc.name
      toolCallId := some tc.id }
  let h1 := h0 ++ [toolMsg]
  let hist1 :=
    if stored.isSome then setEntry st.histories sessionId h1 else st.histories
  match completeResult with
  | Except.error e =>
    (Except.error (AgentError.provider e), { st with histories := hist1 }, [])
  | Except.ok response =>
    let h2 := h1 ++ [{ role := Role.assistant, content := response.text }]
    (Except.ok response.text,
     { st with histories := setEntry st.histories sessionId h2 },
     [VoiceAgentEvent.toolResult tc result])

/-- `VoiceAgent.endSession`: throw `SESSION_NOT_FOUND` when the id is absent;
otherwise mark the session ENDED, delete its ledger, and emit `session:end`
(the payload is the stored session object, which at emission time already
carries status ENDED and the stamped timestamps). -/
def endSession (st : AgentState) (sessionId : String) (now : Nat) :
    Except AgentError Unit × AgentState × List VoiceAgentEvent :=
  match SessionManager.getSession st.sessions sessionId with
  | none => (Except.error (AgentError.sessionNotFound sessionId), st, [])
  | some session =>
    let store1 :=
      match SessionManager.endSession st.sessions sessionId now with
      | Except.ok s => s
      | Except.error _ => st.sessions
    let hist1 := delEntry st.histories sessionId
    let endedSession := (SessionManager.getSession store1 sessionId).getD session
    (Except.ok (), { st with sessions := store1, histories := hist1 },
     [VoiceAgentEvent.sessionEnd endedSession])

end VoiceAgent

/-! ## Map lemmas shared by the claim proofs -/

theorem getEntry_setEntry_self {α : Type} (m : List (String × α)) (k : String)
    (v : α) : getEntry (setEntry m k v) k = some v := by
  induction m with
  | nil => simp [setEntry, getEntry]
  | cons q rest ih =>
    obtain ⟨a, b⟩ := q
    by_cases h : a = k
    · simp [setEntry, getEntry, h]
    · simp [setEntry, getEntry, h, ih]

theorem getEntry_setEntry_ne {α : Type} (m : List (String × α)) (k j : String)
    (v : α) (hne : j ≠ k) : getEntry (setEntry m k v) j = getEntry m j := by
  have hkj : ¬ (k = j) := fun h => hne h.symm
  induction m with
  | nil => simp [setEntry, getEntry, hkj]
  | cons q rest ih =>
    obtain ⟨a, b⟩ := q
    by_cases h : a = k
    · have haj : ¬ (a = j) := by rw [h]; exact hkj
      simp [setEntry, getEntry, h, hkj, haj]
    · by_cases h2 : a = j
      · simp [setEntry, getEntry, h, h2, hne, ih]
      · simp [setEntry, getEntry, h, h2, ih]

theorem mem_of_mem_setEntry {α : Type} {m : List (String × α)} {k : String}
    {v : α} {p : String × α} (h : p ∈ setEntry m k v) :
    p = (k, v) ∨ p ∈ m := by
  induction m with
  | nil => simpa [setEntry] using h
  | cons q rest ih =>
    obtain ⟨a, b⟩ := q
    by_cases hq : a = k
    · subst hq
      simp only [setEntry, if_true, List.mem_cons] at h
      rcases h with h1 | h1
      · exact Or.inl h1
      · exact Or.inr (List.mem_cons_of_mem _ h1)
    · simp only [setEntry, if_neg hq, List.mem_cons] at h
      rcases h with h1 | h1
      · exact Or.inr (h1 ▸ List.mem_cons_self _ _)
      · rcases ih h1 with h2 | h2
        · exact Or.inl h2
        · exact Or.inr (List.mem_cons_of_mem _ h2)

theorem mem_of_getEntry_eq_some {α : Type} {m : List (String × α)} {k : String}
    {v : α} (h : getEntry m k = some v) : (k, v) ∈ m := by
  induction m with
  | nil => simp [getEntry] at h
  | cons q rest ih =>
    obtain ⟨a, b⟩ := q
    by_cases hq : a = k
    · subst hq
      simp only [getEntry, if_true, Option.some.injEq] at h
      rw [← h]
      exact List.mem_cons_self _ _
    · simp only [getEntry, if_neg hq] at h
      exact List.mem_cons_of_mem _ (ih h)

theorem getEntry_eq_none_of_not_mem_keys {α : Type} {m : List (String × α)}
    {k : String} (h : k ∉ m.map Prod.fst) : getEntry m k = none := by
  induction m with
  | nil => simp [getEntry]
  | cons q rest ih =>
    obtain ⟨a, b⟩ := q
    simp only [List.map_cons, List.mem_cons] at h
    push_neg at h
    have ha : ¬ (a = k) := fun hq => h.1 hq.symm
    simp [getEntry, ha, ih h.2]

theorem getEntry_filter_none {α : Type} (m : List (String × α))
    (p : String × α → Bool) (k : String) (h : getEntry m k = none) :
    getEntry (m.filter p) k = none := by
  induction m with
  | nil => simp [getEntry]
  | cons q rest ih =>
    obtain ⟨a, b⟩ := q
    by_cases hq : a = k
    · simp [getEntry, hq] at h
    · simp only [getEntry, if_neg hq] at h
      by_cases hp : p (a, b)
      · simp [List.filter_cons, hp, getEntry, hq, ih h]
      · simp [List.filter_cons, hp, ih h]

theorem getEntry_filter {α : Type} (m : List (String × α))
    (p : String × α → Bool) (k : String) (hnd : (m.map Prod.fst).Nodup) :
    getEntry (m.filter p) k =
      (getEntry m k).bind (fun v => if p (k, v) then some v else none) := by
  induction m with
  | nil => simp [getEntry]
  | cons q rest ih =>
    obtain ⟨a, b⟩ := q
    simp only [List.map_cons, List.nodup_cons] at hnd
    by_cases hq : a = k
    · subst hq
      have hrest : getEntry rest a = none :=
        getEntry_eq_none_of_not_mem_keys hnd.1
      by_cases hp : p (a, b)
      · simp [List.filter_cons, hp, getEntry]
      · simp [List.filter_cons, hp, getEntry,
          getEntry_filter_none rest p a hrest]
    · by_cases hp : p (a, b)
      · simp [List.filter_cons, hp, getEntry, hq, ih hnd.2]
      · simp [List.filter_cons, hp, getEntry, hq, ih hnd.2]

theorem length_filter_add_length_filter_not {α : Type} (l : List α)
    (p : α → Bool) :
    (l.filter p).length + (l.filter (fun a => ! p a)).length = l.length := by
  induction l with
  | nil => simp
  | cons a rest ih =>
    by_cases hp : p a <;> simp [List.filter_cons, hp] <;> omega

theorem filter_not_self_nil {α : Type} (l : List α) (p : α → Bool) :
    (l.filter (fun a => ! p a)).filter p = [] := by
  induction l with
  | nil => simp
  | cons a rest ih =>
    by_cases hp : p a <;> simp [List.filter_cons, hp, ih]

/-! ## Claim C1 — create with a duplicate caller-supplied id -/

/-- C1 (amended): for every store state and every create call with a
caller-supplied id that already exists in the store, `createSession` does
not fail: it allocates a fresh IDLE session under that id (with `startedAt`
stamped to the current time) and overwrites the stored session under that id,
leaving the sessions under every other id unchanged. No `DuplicateSessionId`
failure exists in the code. -/
theorem C1_theorem (st : Store) (config : SessionConfig) (i genId : String)
    (now : Nat) (old : VoiceSession) (hid : config.id = some i)
    (_hold : SessionManager.getSession st i = some old) :
    (SessionManager.createSession st config genId now).1.id = i ∧
    (SessionManager.createSession st config genId now).1.status =
      SessionStatus.idle ∧
    (SessionManager.createSession st config genId now).1.startedAt = now ∧
    SessionManager.getSession
        (SessionManager.createSession st config genId now).2 i =
      some (SessionManager.createSession st config genId now).1 ∧
    (∀ j, j ≠ i →
      SessionManager.getSession
          (SessionManager.createSession st config genId now).2 j =
        SessionManager.getSession st j) := by
  refine ⟨by simp [SessionManager.createSession, hid], rfl, rfl, ?_, ?_⟩
  · simp [SessionManager.createSession, SessionManager.getSession, hid,
      getEntry_setEntry_self]
  · intro j hj
    simp [SessionManager.createSession, SessionManager.getSession, hid,
      getEntry_setEntry_ne _ _ _ _ hj]

/-- An existing ACTIVE session under id "s", for exhibiting C1. -/
def dupSession : VoiceSession :=
  { id := "s"
    status := SessionStatus.active
    config := { id := some "s" }
    startedAt := 3
    metadata := [] }

/-- A store already holding `dupSession` under its id. -/
def dupStore : Store := [("s", dupSession)]

/-- C1 counterexample: creating with the caller-supplied id "s", which
already exists in `dupStore`, does not leave the existing session unchanged —
the stored session under "s" after the call differs from `dupSession` (and no
`DuplicateSessionId` failure is raised: `createSession` returns normally). -/
theorem C1_counterexample :
    SessionManager.getSession dupStore "s" = some dupSession ∧
    SessionManager.getSession
        (SessionManager.createSession dupStore { id := some "s" } "gen" 7).2
        "s" ≠ some dupSession := by
  refine ⟨rfl, ?_⟩
  intro h
  simp [SessionManager.createSession, SessionManager.getSession, setEntry,
    getEntry, dupSession, dupStore] at h

/-- C1 witness: the amended theorem applied to the concrete store
`dupStore` and the concrete call `createSession dupStore {id := "s"} "gen" 7`. -/
theorem C1_witness :
    ((SessionManager.createSession dupStore { id := some "s" } "gen" 7).1.id
        = "s" ∧
     (SessionManager.createSession dupStore
         { id := some "s" } "gen" 7).1.status = SessionStatus.idle ∧
     (SessionManager.createSession dupStore
         { id := some "s" } "gen" 7).1.startedAt = 7 ∧
     SessionManager.getSession
         (SessionManager.createSession dupStore
           { id := some "s" } "gen" 7).2 "s" =
       some (SessionManager.createSession dupStore
           { id := some "s" } "gen" 7).1 ∧
     (∀ j, j ≠ "s" →
       SessionManager.getSession
           (SessionManager.createSession dupStore
             { id := some "s" } "gen" 7).2 j =
         SessionManager.getSession dupStore j)) :=
  C1_theorem dupStore { id := some "s" } "s" "gen" 7 dupSession rfl rfl

/-! ## Claim C2 — re-entering ENDED overwrites the timestamps -/

/-- C2 (amended): `transition(id, ENDED)` always stamps `endedAt := now` and
`duration := (endedAt - startedAt)/1000` seconds, overwriting any earlier
stamp. The first entry into ENDED therefore stamps exactly as the claim
says, but re-entering ENDED at a later time changes `endedAt` and `duration`
again (overwrite semantics, not idempotent). -/
theorem C2_theorem (st : Store) (id : String) (s : VoiceSession) (now : Nat)
    (hs : SessionManager.getSession st id = some s) :
    ∃ st', SessionManager.updateSessionStatus st id SessionStatus.ended now =
        Except.ok st' ∧
      SessionManager.getSession st' id = some
        { s with
            status := SessionStatus.ended
            endedAt := some now
            duration := some (((now : ℚ) - (s.startedAt : ℚ)) / 1000) } ∧
      (∀ j, j ≠ id → SessionManager.getSession st' j =
        SessionManager.getSession st j) := by
  refine ⟨setEntry st id
      { s with
          status := SessionStatus.ended
          endedAt := some now
          duration := some (((now : ℚ) - (s.startedAt : ℚ)) / 1000) },
    ?_, ?_, ?_⟩
  · simp [SessionManager.updateSessionStatus, hs]
  · simp [SessionManager.getSession, getEntry_setEntry_self]
  · intro j hj
    simp [SessionManager.getSession, getEntry_setEntry_ne _ _ _ _ hj]

/-- An ACTIVE session started at time 0, for exhibiting C2. -/
def reEndSession : VoiceSession :=
  { id := "r"
    status := SessionStatus.active
    config := {}
    startedAt := 0
    metadata := [] }

/-- A store holding `reEndSession`. -/
def reEndStore : Store := [("r", reEndSession)]

/-- C2 counterexample: entering ENDED at t = 1000 stamps endedAt = 1000 and
duration = 1 s; calling `transition(id, ENDED)` again at t = 2000 changes
endedAt to 2000 and duration to 2 s — the second call is not a no-op on
timestamps. -/
theorem C2_counterexample :
    (let st1 := (SessionManager.updateSessionStatus reEndStore "r"
        SessionStatus.ended 1000).toOption
     let st2 := st1.bind (fun st =>
        (SessionManager.updateSessionStatus st "r"
          SessionStatus.ended 2000).toOption)
     (st1.bind fun st =>
        (SessionManager.getSession st "r").bind VoiceSession.endedAt) =
          some 1000 ∧
     (st2.bind fun st =>
        (SessionManager.getSession st "r").bind VoiceSession.endedAt) =
          some 2000 ∧
     (st1.bind fun st =>
        (SessionManager.getSession st "r").bind VoiceSession.duration) =
          some 1 ∧
     (st2.bind fun st =>
        (SessionManager.getSession st "r").bind VoiceSession.duration) =
          some 2) := by
  refine ⟨rfl, rfl, ?_, ?_⟩ <;>
    norm_num [SessionManager.updateSessionStatus, SessionManager.getSession,
      reEndStore, reEndSession, getEntry, setEntry, Except.toOption,
      Option.bind]

/-- C2 witness: the amended theorem applied to `reEndStore` at t = 1000. -/
theorem C2_witness :
    SessionManager.getSession reEndStore "r" = some reEndSession ∧
    (∃ st', SessionManager.updateSessionStatus reEndStore "r"
        SessionStatus.ended 1000 = Except.ok st' ∧
      SessionManager.getSession st' "r" = some
        { reEndSession with
            status := SessionStatus.ended
            endedAt := some 1000
            duration := some (((1000 : ℚ) -
              ((reEndSession.startedAt : Nat) : ℚ)) / 1000) } ∧
      (∀ j, j ≠ "r" → SessionManager.getSession st' j =
        SessionManager.getSession reEndStore j)) :=
  ⟨rfl, C2_theorem reEndStore "r" reEndSession 1000 rfl⟩

/-! ## Claim C8 — sweepExpired removes exactly the stale ENDED sessions -/

/-- The loop guard of `cleanupOldSessions`, in propositional form. -/
theorem isExpired_iff (s : VoiceSession) (maxAgeMs : Int) (now : Nat) :
    SessionManager.isExpired s maxAgeMs now = true ↔
      (s.status = SessionStatus.ended ∧
        ∃ e, s.endedAt = some e ∧ (now : Int) - (e : Int) > maxAgeMs) := by
  unfold SessionManager.isExpired
  cases h : s.endedAt with
  | none => simp [h]
  | some e => simp [h]

/-- C8: for every store state (with the key uniqueness a JS `Map` maintains)
and every `maxAge`, `cleanupOldSessions` deletes exactly those sessions whose
status is ENDED and whose end time is strictly older than `maxAge` relative
to the current time, leaves every other session untouched, returns the
number removed, and running it a second time at the same current time
removes 0. -/
theorem C8_theorem (st : Store) (maxAgeMs : Int) (now : Nat)
    (hkeys : (st.map Prod.fst).Nodup) :
    (∀ id s, SessionManager.getSession st id = some s →
      ((s.status = SessionStatus.ended ∧
          ∃ e, s.endedAt = some e ∧ (now : Int) - (e : Int) > maxAgeMs) →
        SessionManager.getSession
          (SessionManager.cleanupOldSessions st maxAgeMs now).2 id = none) ∧
      (¬ (s.status = SessionStatus.ended ∧
          ∃ e, s.endedAt = some e ∧ (now : Int) - (e : Int) > maxAgeMs) →
        SessionManager.getSession
          (SessionManager.cleanupOldSessions st maxAgeMs now).2 id =
            some s)) ∧
    (∀ id, SessionManager.getSession st id = none →
      SessionManager.getSession
        (SessionManager.cleanupOldSessions st maxAgeMs now).2 id = none) ∧
    (SessionManager.cleanupOldSessions st maxAgeMs now).1 +
        (SessionManager.cleanupOldSessions st maxAgeMs now).2.length =
      st.length ∧
    (SessionManager.cleanupOldSessions
      (SessionManager.cleanupOldSessions st maxAgeMs now).2 maxAgeMs now).1 =
        0 := by
  refine ⟨?_, ?_, ?_, ?_⟩
  · intro id s hget
    have hf := getEntry_filter st
      (fun p => ! SessionManager.isExpired p.2 maxAgeMs now) id hkeys
    have hget' : getEntry st id = some s := hget
    constructor
    · intro hexp
      have hexp' : SessionManager.isExpired s maxAgeMs now = true :=
        (isExpired_iff s maxAgeMs now).mpr hexp
      simp [SessionManager.cleanupOldSessions, SessionManager.getSession,
        hf, hget', hexp']
    · intro hnexp
      have hexp' : SessionManager.isExpired s maxAgeMs now = false :=
        Bool.eq_false_iff.mpr
          (fun hb => hnexp ((isExpired_iff s maxAgeMs now).mp hb))
      simp [SessionManager.cleanupOldSessions, SessionManager.getSession,
        hf, hget', hexp']
  · intro id hnone
    exact getEntry_filter_none st _ id hnone
  · simpa [SessionManager.cleanupOldSessions] using
      length_filter_add_length_filter_not st
        (fun p => SessionManager.isExpired p.2 maxAgeMs now)
  · simp [SessionManager.cleanupOldSessions, filter_not_self_nil]

/-- An ENDED session with end time 100, stale for the C8 witness sweep. -/
def sweepEnded : VoiceSession :=
  { id := "e"
    status := SessionStatus.ended
    config := {}
    startedAt := 0
    endedAt := some 100
    duration := some ((((100 : Nat) : ℚ) - ((0 : Nat) : ℚ)) / 1000)
    metadata := [] }

/-- An ACTIVE session, untouched by the C8 witness sweep. -/
def sweepActive : VoiceSession :=
  { id := "a"
    status := SessionStatus.active
    config := {}
    startedAt := 50
    metadata := [] }

/-- The two-session store swept in the C8 witness. -/
def sweepStore : Store := [("e", sweepEnded), ("a", sweepActive)]

/-- C8 witness: the theorem applied to `sweepStore` with maxAge 1000 ms at
current time 5000 ms. -/
theorem C8_witness :
    (sweepStore.map Prod.fst).Nodup ∧
    ((∀ id s, SessionManager.getSession sweepStore id = some s →
      ((s.status = SessionStatus.ended ∧
          ∃ e, s.endedAt = some e ∧ ((5000 : Nat) : Int) - (e : Int) > 1000) →
        SessionManager.getSession
          (SessionManager.cleanupOldSessions sweepStore 1000 5000).2 id =
            none) ∧
      (¬ (s.status = SessionStatus.ended ∧
          ∃ e, s.endedAt = some e ∧ ((5000 : Nat) : Int) - (e : Int) > 1000) →
        SessionManager.getSession
          (SessionManager.cleanupOldSessions sweepStore 1000 5000).2 id =
            some s)) ∧
    (∀ id, SessionManager.getSession sweepStore id = none →
      SessionManager.getSession
        (SessionManager.cleanupOldSessions sweepStore 1000 5000).2 id =
          none) ∧
    (SessionManager.cleanupOldSessions sweepStore 1000 5000).1 +
        (SessionManager.cleanupOldSessions sweepStore 1000 5000).2.length =
      sweepStore.length ∧
    (SessionManager.cleanupOldSessions
      (SessionManager.cleanupOldSessions sweepStore 1000 5000).2
        1000 5000).1 = 0) :=
  ⟨by simp [sweepStore], C8_theorem sweepStore 1000 5000 (by simp [sweepStore])⟩

/-! ## Claim C9 — duration/status invariant over reachable stores -/

/-- Store states reachable from the empty store by any sequence of Session
Store operations: create, transition, end, delete, sweep. -/
inductive Reachable : Store → Prop where
  | init : Reachable []
  | create (st : Store) (config : SessionConfig) (genId : String)
      (now : Nat) : Reachable st →
      Reachable (SessionManager.createSession st config genId now).2
  | transition (st : Store) (id : String) (status : SessionStatus) (now : Nat)
      (st' : Store) : Reachable st →
      SessionManager.updateSessionStatus st id status now = Except.ok st' →
      Reachable st'
  | endCall (st : Store) (id : String) (now : Nat) (st' : Store) :
      Reachable st →
      SessionManager.endSession st id now = Except.ok st' → Reachable st'
  | deleteCall (st : Store) (id : String) :
      Reachable st → Reachable (SessionManager.deleteSession st id).2
  | sweep (st : Store) (maxAgeMs : Int) (now : Nat) :
      Reachable st →
      Reachable (SessionManager.cleanupOldSessions st maxAgeMs now).2

/-- The direction of the C9 invariant the code maintains: an ENDED session
carries matching stamps, and a set `duration` always equals
(endedAt − startedAt) in seconds. -/
def DurationInv (s : VoiceSession) : Prop :=
  (s.status = SessionStatus.ended →
    ∃ e, s.endedAt = some e ∧
      s.duration = some (((e : ℚ) - (s.startedAt : ℚ)) / 1000)) ∧
  (∀ d, s.duration = some d →
    ∃ e, s.endedAt = some e ∧ d = ((e : ℚ) - (s.startedAt : ℚ)) / 1000)

/-- `updateSessionStatus` preserves the duration invariant on every stored
session. -/
theorem updateSessionStatus_inv (st : Store) (id : String)
    (status : SessionStatus) (now : Nat) (st' : Store)
    (h : SessionManager.updateSessionStatus st id status now = Except.ok st')
    (hinv : ∀ p ∈ st, DurationInv p.2) : ∀ p ∈ st', DurationInv p.2 := by
  unfold SessionManager.updateSessionStatus at h
  cases hget : SessionManager.getSession st id with
  | none => rw [hget] at h; cases h
  | some s =>
    rw [hget] at h
    by_cases hst : status = SessionStatus.ended
    · subst hst
      simp at h
      subst h
      intro p hp
      rcases mem_of_mem_setEntry hp with rfl | hp2
      · constructor
        · intro _
          exact ⟨now, rfl, rfl⟩
        · intro d hd
          injection hd with hd
          exact ⟨now, rfl, hd.symm⟩
      · exact hinv p hp2
    · simp only [if_neg hst, Except.ok.injEq] at h
      subst h
      intro p hp
      rcases mem_of_mem_setEntry hp with rfl | hp2
      · have hold := hinv (id, s) (mem_of_getEntry_eq_some hget)
        constructor
        · intro hs'
          exact absurd hs' hst
        · intro d hd
          exact hold.2 d hd
      · exact hinv p hp2

/-- Every reachable store satisfies the duration invariant on every stored
session. -/
theorem reachable_inv (st : Store) (h : Reachable st) :
    ∀ p ∈ st, DurationInv p.2 := by
  induction h with
  | init => intro p hp; cases hp
  | create st config genId now _ ih =>
    intro p hp
    simp only [SessionManager.createSession] at hp
    rcases mem_of_mem_setEntry hp with rfl | hp2
    · constructor
      · intro hst; cases hst
      · intro d hd; cases hd
    · exact ih p hp2
  | transition st id status now st' _ heq ih =>
    exact updateSessionStatus_inv st id status now st' heq ih
  | endCall st id now st' _ heq ih =>
    unfold SessionManager.endSession at heq
    cases hget : SessionManager.getSession st id with
    | none => rw [hget] at heq; cases heq
    | some s =>
      rw [hget] at heq
      exact updateSessionStatus_inv st id SessionStatus.ended now st' heq ih
  | deleteCall st id _ ih =>
    intro p hp
    simp only [SessionManager.deleteSession, delEntry] at hp
    exact ih p (List.mem_of_mem_filter hp)
  | sweep st maxAgeMs now _ ih =>
    intro p hp
    simp only [SessionManager.cleanupOldSessions] at hp
    exact ih p (List.mem_of_mem_filter hp)

/-- C9 (amended): over every store state reachable by any sequence of Session
Store operations, a session whose status is ENDED has `duration` set and
equal to (endedAt − startedAt) in seconds, and whenever `duration` is set it
equals (endedAt − startedAt) in seconds. The "only if" direction of the
claimed equivalence fails: transitioning an ENDED session back to a
non-ENDED status leaves `duration` set (see the counterexample). -/
theorem C9_theorem (st : Store) (h : Reachable st) (id : String)
    (s : VoiceSession) (hget : SessionManager.getSession st id = some s) :
    (s.status = SessionStatus.ended →
      ∃ e, s.endedAt = some e ∧
        s.duration = some (((e : ℚ) - (s.startedAt : ℚ)) / 1000)) ∧
    (∀ d, s.duration = some d →
      ∃ e, s.endedAt = some e ∧ d = ((e : ℚ) - (s.startedAt : ℚ)) / 1000) :=
  reachable_inv st h (id, s) (mem_of_getEntry_eq_some hget)

/-- The IDLE session created first in the C9 scenario. -/
def violStart : VoiceSession :=
  { id := "s"
    status := SessionStatus.idle
    config := { id := some "s" }
    startedAt := 0
    metadata := [] }

/-- Store after `create` in the C9 scenario. -/
def violStartStore : Store := [("s", violStart)]

/-- The session after `transition(ENDED)` at t = 2000 in the C9 scenario. -/
def violMid : VoiceSession :=
  { id := "s"
    status := SessionStatus.ended
    config := { id := some "s" }
    startedAt := 0
    endedAt := some 2000
    duration := some ((((2000 : Nat) : ℚ) - ((0 : Nat) : ℚ)) / 1000)
    metadata := [] }

/-- Store after `transition(ENDED)` in the C9 scenario. -/
def violMidStore : Store := [("s", violMid)]

/-- The session after the further `transition(ACTIVE)` at t = 3000: status is
ACTIVE but `duration` is still set. -/
def violSession : VoiceSession :=
  { id := "s"
    status := SessionStatus.active
    config := { id := some "s" }
    startedAt := 0
    endedAt := some 2000
    duration := some ((((2000 : Nat) : ℚ) - ((0 : Nat) : ℚ)) / 1000)
    metadata := [] }

/-- Store reached by create; transition(ENDED); transition(ACTIVE). -/
def violStore : Store := [("s", violSession)]

/-- C9 counterexample: the store reached by create → transition(ENDED) →
transition(ACTIVE) holds a session whose `duration` is set while its status
is not ENDED, so "duration is set if and only if status is ENDED" fails on a
reachable state. -/
theorem C9_counterexample :
    Reachable violStore ∧
    SessionManager.getSession violStore "s" = some violSession ∧
    violSession.duration.isSome = true ∧
    violSession.status ≠ SessionStatus.ended := by
  refine ⟨?_, rfl, rfl, by decide⟩
  have h0 : Reachable violStartStore :=
    Reachable.create [] { id := some "s" } "g" 0 Reachable.init
  have h1 : Reachable violMidStore :=
    Reachable.transition violStartStore "s" SessionStatus.ended 2000
      violMidStore h0 rfl
  exact Reachable.transition violMidStore "s" SessionStatus.active 3000
    violStore h1 rfl

/-- C9 witness: the amended theorem applied to the reachable store
`violMidStore`, whose only session is ENDED with matching stamps. -/
theorem C9_witness :
    SessionManager.getSession violMidStore "s" = some violMid ∧
    ((violMid.status = SessionStatus.ended →
      ∃ e, violMid.endedAt = some e ∧
        violMid.duration = some (((e : ℚ) - (violMid.startedAt : ℚ)) / 1000)) ∧
    (∀ d, violMid.duration = some d →
      ∃ e, violMid.endedAt = some e ∧
        d = ((e : ℚ) - (violMid.startedAt : ℚ)) / 1000)) :=
  ⟨rfl,
   C9_theorem violMidStore
     (Reachable.transition violStartStore "s" SessionStatus.ended 2000
       violMidStore
       (Reachable.create [] { id := some "s" } "g" 0 Reachable.init) rfl)
     "s" violMid rfl⟩

/-! ## Shared concrete inputs for the turn-level witnesses -/

/-- An ACTIVE session under id "d". -/
def demoSession : VoiceSession :=
  { id := "d"
    status := SessionStatus.active
    config := {}
    startedAt := 0
    metadata := [] }

/-- An agent holding `demoSession` with an (empty) installed ledger. -/
def demoAgent : AgentState :=
  { sessions := [("d", demoSession)]
    histories := [("d", [])]
    systemPrompt := "helpful" }

/-- A final transcript, as in the spec's example scenario. -/
def demoTranscript : Transcript :=
  { text := "hours?"
    confidence := 19 / 20
    isFinal := true
    timestamp := 4 }

/-- A completion result with no tool calls. -/
def demoResponse : LLMResponse := { text := "9-5 Mon-Fri" }

/-- A tool call, for the `sendToolResult` witnesses. -/
def demoTool : ToolCall := { id := "call1", name := "lookup", arguments := [] }

/-! ## Claim C3 — successful processTurn appends user then assistant -/

/-- C3: for every existing session and every successful `processAudio` call
(both backend calls succeed), the session's history grows by exactly two
messages — a user message carrying the transcript text followed by an
assistant message carrying the response text, all earlier ledger entries
unchanged — and the call returns the transcript, the completion's text, and
its tool calls. -/
theorem C3_theorem (st : AgentState) (sessionId : String) (audio : List Nat)
    (now : Nat) (t : Transcript) (resp : LLMResponse) (sess : VoiceSession)
    (hs : SessionManager.getSession st.sessions sessionId = some sess) :
    (VoiceAgent.processAudio st sessionId audio now (Except.ok t)
        (Except.ok resp)).1 =
      Except.ok
        { transcript := t, response := resp.text,
          toolCalls := resp.toolCalls } ∧
    VoiceAgent.getConversationHistory
        (VoiceAgent.processAudio st sessionId audio now (Except.ok t)
          (Except.ok resp)).2.1 sessionId =
      VoiceAgent.getConversationHistory st sessionId ++
        [{ role := Role.user, content := t.text },
         { role := Role.assistant, content := resp.text }] := by
  unfold VoiceAgent.processAudio
  rw [hs]
  refine ⟨rfl, ?_⟩
  simp [VoiceAgent.getConversationHistory, getEntry_setEntry_self]

/-- C3 witness: the theorem at `demoAgent`, the spec's example turn. -/
theorem C3_witness :
    SessionManager.getSession demoAgent.sessions "d" = some demoSession ∧
    ((VoiceAgent.processAudio demoAgent "d" [1, 2] 9
        (Except.ok demoTranscript) (Except.ok demoResponse)).1 =
      Except.ok
        { transcript := demoTranscript, response := demoResponse.text,
          toolCalls := demoResponse.toolCalls } ∧
    VoiceAgent.getConversationHistory
        (VoiceAgent.processAudio demoAgent "d" [1, 2] 9
          (Except.ok demoTranscript) (Except.ok demoResponse)).2.1 "d" =
      VoiceAgent.getConversationHistory demoAgent "d" ++
        [{ role := Role.user, content := demoTranscript.text },
         { role := Role.assistant, content := demoResponse.text }]) :=
  ⟨rfl, C3_theorem demoAgent "d" [1, 2] 9 demoTranscript demoResponse
    demoSession rfl⟩

/-! ## Claim C5 — event sequence of a successful processTurn -/

/-- C5: for every successful `processAudio` call, the events delivered to
generic subscribers are exactly: `audio:input`, `transcript:final`,
`llm:start`, `llm:response`, followed by one `tool:call` event per tool call
of the completion result, in the order the backend returned them, and no
other events. -/
theorem C5_theorem (st : AgentState) (sessionId : String) (audio : List Nat)
    (now : Nat) (t : Transcript) (resp : LLMResponse) (sess : VoiceSession)
    (hs : SessionManager.getSession st.sessions sessionId = some sess) :
    (VoiceAgent.processAudio st sessionId audio now (Except.ok t)
        (Except.ok resp)).2.2 =
      [VoiceAgentEvent.audioInput audio now,
       VoiceAgentEvent.transcriptFinal t,
       VoiceAgentEvent.llmStart
         { messages := VoiceAgent.getConversationHistory st sessionId ++
             [{ role := Role.user, content := t.text }]
           systemPrompt := some st.systemPrompt
           stream := some false },
       VoiceAgentEvent.llmResponse resp] ++
        (resp.toolCalls.getD []).map VoiceAgentEvent.toolCall := by
  unfold VoiceAgent.processAudio
  rw [hs]
  simp [VoiceAgent.getConversationHistory]

/-- C5 witness: the theorem at `demoAgent`. -/
theorem C5_witness :
    SessionManager.getSession demoAgent.sessions "d" = some demoSession ∧
    (VoiceAgent.processAudio demoAgent "d" [3] 11
        (Except.ok demoTranscript) (Except.ok demoResponse)).2.2 =
      [VoiceAgentEvent.audioInput [3] 11,
       VoiceAgentEvent.transcriptFinal demoTranscript,
       VoiceAgentEvent.llmStart
         { messages := VoiceAgent.getConversationHistory demoAgent "d" ++
             [{ role := Role.user, content := demoTranscript.text }]
           systemPrompt := some demoAgent.systemPrompt
           stream := some false },
       VoiceAgentEvent.llmResponse demoResponse] ++
        (demoResponse.toolCalls.getD []).map VoiceAgentEvent.toolCall :=
  ⟨rfl, C5_theorem demoAgent "d" [3] 11 demoTranscript demoResponse
    demoSession rfl⟩

/-! ## Claim C7 — transcription failure leaves everything untouched -/

/-- C7: for every `processAudio` call on an existing session in which the
transcription backend fails, the failure propagates to the caller, no event
after `audio:input` is emitted for the turn, and the agent state — in
particular the session's history — is left exactly as it stood before the
call. -/
theorem C7_theorem (st : AgentState) (sessionId : String) (audio : List Nat)
    (now : Nat) (e : String) (completeResult : Except String LLMResponse)
    (sess : VoiceSession)
    (hs : SessionManager.getSession st.sessions sessionId = some sess) :
    (VoiceAgent.processAudio st sessionId audio now (Except.error e)
        completeResult).1 = Except.error (AgentError.provider e) ∧
    (VoiceAgent.processAudio st sessionId audio now (Except.error e)
        completeResult).2.1 = st ∧
    (VoiceAgent.processAudio st sessionId audio now (Except.error e)
        completeResult).2.2 = [VoiceAgentEvent.audioInput audio now] := by
  unfold VoiceAgent.processAudio
  rw [hs]
  exact ⟨rfl, rfl, rfl⟩

/-- C7 witness: the theorem at `demoAgent` with a failing speech backend. -/
theorem C7_witness :
    SessionManager.getSession demoAgent.sessions "d" = some demoSession ∧
    ((VoiceAgent.processAudio demoAgent "d" [9] 12
        (Except.error "speech down") (Except.ok demoResponse)).1 =
      Except.error (AgentError.provider "speech down") ∧
    (VoiceAgent.processAudio demoAgent "d" [9] 12
        (Except.error "speech down") (Except.ok demoResponse)).2.1 =
      demoAgent ∧
    (VoiceAgent.processAudio demoAgent "d" [9] 12
        (Except.error "speech down") (Except.ok demoResponse)).2.2 =
      [VoiceAgentEvent.audioInput [9] 12]) :=
  ⟨rfl, C7_theorem demoAgent "d" [9] 12 "speech down"
    (Except.ok demoResponse) demoSession rfl⟩

/-! ## Claim C4 — completion failure keeps the user message, with a caveat -/

/-- C4 (amended): for every `processAudio` call on an existing session in
which transcription succeeds but the completion backend fails, the error
propagates to the caller, and the session's history grows by exactly the one
user message — not rolled back — provided the session's ledger is present in
the conversation-history map (true for every session started and not yet
ended). When the ledger entry is absent (ending a session deletes it while
the session object stays in the store), the pushed user message lands in a
fresh array that is never stored, and the history is unchanged. -/
theorem C4_theorem (st : AgentState) (sessionId : String) (audio : List Nat)
    (now : Nat) (t : Transcript) (e : String) (sess : VoiceSession)
    (hs : SessionManager.getSession st.sessions sessionId = some sess) :
    (VoiceAgent.processAudio st sessionId audio now (Except.ok t)
        (Except.error e)).1 = Except.error (AgentError.provider e) ∧
    VoiceAgent.getConversationHistory
        (VoiceAgent.processAudio st sessionId audio now (Except.ok t)
          (Except.error e)).2.1 sessionId =
      (match getEntry st.histories sessionId with
       | some h => h ++ [{ role := Role.user, content := t.text }]
       | none => []) := by
  unfold VoiceAgent.processAudio
  rw [hs]
  refine ⟨rfl, ?_⟩
  cases hst : getEntry st.histories sessionId with
  | none =>
    simp [VoiceAgent.getConversationHistory, hst]
  | some h =>
    simp [VoiceAgent.getConversationHistory, hst, getEntry_setEntry_self]

/-- Fresh agent for the C4 counterexample scenario. -/
def c4Agent0 : AgentState :=
  { sessions := [], histories := [], systemPrompt := "sys" }

/-- After `startSession` with caller-supplied id "s" at t = 0. -/
def c4Agent1 : AgentState :=
  (VoiceAgent.startSession c4Agent0 { id := some "s" } "g" 0).2.1

/-- After `endSession("s")` at t = 5: the session object stays in the store
with status ENDED, but its ledger entry is deleted. -/
def c4Agent2 : AgentState := (VoiceAgent.endSession c4Agent1 "s" 5).2.1

/-- The transcript returned by the speech backend in the C4 scenario. -/
def c4Transcript : Transcript :=
  { text := "hi", confidence := 1, isFinal := true, timestamp := 6 }

/-- C4 counterexample: on the ended-but-still-stored session "s" (reached via
startSession then endSession), a `processAudio` call whose transcription
succeeds and whose completion fails propagates the error but leaves the
history unchanged — it grows by 0 messages, not 1, because the pushed user
message went into a fresh array that was never stored. -/
theorem C4_counterexample :
    (SessionManager.getSession c4Agent2.sessions "s").isSome = true ∧
    VoiceAgent.getConversationHistory c4Agent2 "s" = [] ∧
    (VoiceAgent.processAudio c4Agent2 "s" [] 7 (Except.ok c4Transcript)
        (Except.error "llm down")).1 =
      Except.error (AgentError.provider "llm down") ∧
    VoiceAgent.getConversationHistory
        (VoiceAgent.processAudio c4Agent2 "s" [] 7 (Except.ok c4Transcript)
          (Except.error "llm down")).2.1 "s" = [] :=
  ⟨rfl, rfl, rfl, rfl⟩

/-- C4 witness: the amended theorem at `demoAgent`, whose ledger is present,
where the history does grow by exactly the user message. -/
theorem C4_witness :
    SessionManager.getSession demoAgent.sessions "d" = some demoSession ∧
    ((VoiceAgent.processAudio demoAgent "d" [7] 13 (Except.ok c4Transcript)
        (Except.error "llm down")).1 =
      Except.error (AgentError.provider "llm down") ∧
    VoiceAgent.getConversationHistory
        (VoiceAgent.processAudio demoAgent "d" [7] 13
          (Except.ok c4Transcript) (Except.error "llm down")).2.1 "d" =
      (match getEntry demoAgent.histories "d" with
       | some h => h ++ [{ role := Role.user, content := c4Transcript.text }]
       | none => [])) :=
  ⟨rfl, C4_theorem demoAgent "d" [7] 13 c4Transcript "llm down"
    demoSession rfl⟩

/-! ## Claim C6 — submitToolResult appends tool then assistant -/

/-- C6: for every `sendToolResult` call whose completion backend call
succeeds, exactly two messages are appended to the session's history — first
a tool-role message carrying the serialized result, the tool name, and the
originating call id, then an assistant message — and the call returns the new
assistant response text. -/
theorem C6_theorem (st : AgentState) (sessionId : String) (tc : ToolCall)
    (result : JsonValue) (resp : LLMResponse) :
    (VoiceAgent.sendToolResult st sessionId tc result (Except.ok resp)).1 =
      Except.ok resp.text ∧
    VoiceAgent.getConversationHistory
        (VoiceAgent.sendToolResult st sessionId tc result
          (Except.ok resp)).2.1 sessionId =
      VoiceAgent.getConversationHistory st sessionId ++
        [{ role := Role.tool, content := JsonValue.serialize result,
           name := some tc.name, toolCallId := some tc.id },
         { role := Role.assistant, content := resp.text }] := by
  refine ⟨rfl, ?_⟩
  simp [VoiceAgent.sendToolResult, VoiceAgent.getConversationHistory,
    getEntry_setEntry_self]

/-! ## Claim C10 — submitToolResult never checks session existence -/

/-- C10: `sendToolResult` performs no session-existence check: for every
agent state and session id — including an unknown id, or one whose session
was ended (which deletes its ledger) — the call never fails with
`SESSION_NOT_FOUND`; and when the id has no stored ledger, a successful call
creates a fresh history under that id containing exactly the newly appended
tool and assistant messages. -/
theorem C10_theorem (st : AgentState) (sessionId : String) (tc : ToolCall)
    (result : JsonValue) (completeResult : Except String LLMResponse) :
    (∀ i, (VoiceAgent.sendToolResult st sessionId tc result
        completeResult).1 ≠ Except.error (AgentError.sessionNotFound i)) ∧
    (getEntry st.histories sessionId = none →
      ∀ resp : LLMResponse,
        VoiceAgent.getConversationHistory
            (VoiceAgent.sendToolResult st sessionId tc result
              (Except.ok resp)).2.1 sessionId =
          [{ role := Role.tool, content := JsonValue.serialize result,
             name := some tc.name, toolCallId := some tc.id },
           { role := Role.assistant, content := resp.text }]) := by
  constructor
  · intro i
    cases completeResult with
    | error e => simp [VoiceAgent.sendToolResult]
    | ok resp => simp [VoiceAgent.sendToolResult]
  · intro hnone resp
    simp [VoiceAgent.sendToolResult, VoiceAgent.getConversationHistory,
      hnone, getEntry_setEntry_self]

/-- C10 witness: the theorem at `demoAgent` with the unknown session id "z"
(no session, no ledger). -/
theorem C10_witness :
    getEntry demoAgent.histories "z" = none ∧
    (VoiceAgent.sendToolResult demoAgent "z" demoTool JsonValue.null
        (Except.ok demoResponse)).1 ≠
      Except.error (AgentError.sessionNotFound "z") ∧
    VoiceAgent.getConversationHistory
        (VoiceAgent.sendToolResult demoAgent "z" demoTool JsonValue.null
          (Except.ok demoResponse)).2.1 "z" =
      [{ role := Role.tool, content := JsonValue.serialize JsonValue.null,
         name := some demoTool.name, toolCallId := some demoTool.id },
       { role := Role.assistant, content := demoResponse.text }] :=
  ⟨rfl,
   (C10_theorem demoAgent "z" demoTool JsonValue.null
     (Except.ok demoResponse)).1 "z",
   (C10_theorem demoAgent "z" demoTool JsonValue.null
     (Except.ok demoResponse)).2 rfl demoResponse⟩

end NioVoice
